import Mathlib

/-!
# GoLoadTester: shallow embedding of `cmd/main.go` and `internal/loadtester/tester.go`

The development models the client pool, the round-robin selection step, the
saturation benchmark's counting, the dispatcher's tick arithmetic and its
`RUNNING -> DRAINING -> DONE` loop, and the control flow of `main`.

Conventions.
* Go `int`, `int64` and `time.Duration` are 64-bit two's-complement integers,
  `int32` is 32-bit; they are embedded in `Int` with explicit wrapping.
* Go `/` and `%` truncate toward zero (`Int.tdiv`, `Int.tmod`) and panic on a
  zero divisor; a panic is the `none` result.
* `net.ResolveTCPAddr` is an external collaborator and is taken as a parameter.
* Scheduling decisions (which requests happen, in which order units finish) are
  supplied from outside as explicit lists.
-/

namespace GoLoadTester

/-! ## Machine integers -/

/-- Two's-complement wrapping of an integer to Go `int32`. -/
def wrapInt32 (x : Int) : Int :=
  if 2147483648 ≤ x % 4294967296 then x % 4294967296 - 4294967296 else x % 4294967296

/-- Two's-complement wrapping of an integer to Go `int64` (also `int`, `time.Duration`). -/
def wrapInt64 (x : Int) : Int :=
  if 9223372036854775808 ≤ x % 18446744073709551616 then
    x % 18446744073709551616 - 18446744073709551616
  else x % 18446744073709551616

/-- Go integer division `x / y` on 64-bit operands: truncating, `none` for the
run-time panic on a zero divisor. -/
def goDiv (x y : Int) : Option Int :=
  if y = 0 then none else some (wrapInt64 (Int.tdiv x y))

/-- Go remainder `x % y` on `int32` operands: sign of the dividend, `none` for
the run-time panic on a zero divisor. -/
def goRem32 (x y : Int) : Option Int :=
  if y = 0 then none else some (wrapInt32 (Int.tmod x y))

/-- The constant `time.Second`, in nanoseconds. -/
def Second : Int := 1000000000

/-! ## Clients (`createHTTPClient`, tester.go 17-38) -/

/-- A resolved local TCP endpoint, as returned by `net.ResolveTCPAddr`. -/
structure TCPAddr where
  endpoint : String
  deriving DecidableEq, Repr

/-- The fields of `net.Dialer` that the program sets. -/
structure Dialer where
  LocalAddr : TCPAddr
  Timeout : Int
  deriving DecidableEq, Repr

/-- The fields of `http.Client` that the program sets. `Transport = none` is the
default transport; `Timeout` is a `time.Duration` in nanoseconds, and in
`net/http` a `Timeout` of zero means that no timeout is applied. -/
structure Client where
  Transport : Option Dialer
  Timeout : Int
  deriving DecidableEq, Repr

/-- The value `http.DefaultClient` of `net/http`, declared there as `&Client{}`:
default transport, zero `Timeout`. -/
def DefaultClient : Client := { Transport := none, Timeout := 0 }

/-- The test `strings.Contains(localAddrStr, ":")`. -/
def containsColon (s : String) : Bool := s.toList.contains ':'

/-- The string `createHTTPClient` hands to `net.ResolveTCPAddr` (tester.go 18-22):
`":0"` is appended exactly when the string contains no colon. -/
def addrToResolve (localAddrStr : String) : String :=
  if !containsColon localAddrStr then localAddrStr ++ ":0" else localAddrStr

/-- The function `createHTTPClient` (tester.go 17-38). `resolve` stands for
`net.ResolveTCPAddr("tcp", ·)`; `none` is the returned error. -/
def createHTTPClient (resolve : String → Option TCPAddr) (localAddrStr : String) :
    Option Client :=
  match resolve (addrToResolve localAddrStr) with
  | none => none
  | some tcpAddr =>
    let dialer : Dialer := { LocalAddr := tcpAddr, Timeout := 30 * Second }
    some { Transport := some dialer, Timeout := 30 * Second }

/-! ## Client pool (tester.go 51-64 and, verbatim again, 109-122) -/

/-- One iteration of the `for _, addr := range localAddrs` loop: on error the
address is skipped (`continue`), otherwise the client is appended. -/
def poolLoopBody (resolve : String → Option TCPAddr) (clients : List Client)
    (addr : String) : List Client :=
  match createHTTPClient resolve addr with
  | none => clients
  | some client => clients ++ [client]

/-- The pool construction shared by `BenchmarkMaxRequests` and `StartTest`. -/
def buildPool (resolve : String → Option TCPAddr) (localAddrs : List String) :
    List Client :=
  let clients : List Client :=
    if localAddrs.length > 0 then localAddrs.foldl (poolLoopBody resolve) [] else []
  if clients.length = 0 then clients ++ [DefaultClient] else clients

/-! ## Round-robin selection (tester.go 78-79 and 144-145) -/

/-- The expression `int(atomic.AddInt32(&clientCounter, 1) % int32(len(clients)))`
for a pool of `K` clients: returns the new counter value and the index, `none`
if the remainder panics. -/
def selectIndex (clientCounter : Int) (K : Nat) : Option (Int × Int) :=
  let c := wrapInt32 (clientCounter + 1)
  match goRem32 c (wrapInt32 (K : Int)) with
  | none => none
  | some index => some (c, index)

/-- The indexing `clients[index]` with an `int` index: `none` is the run-time
panic for an index out of range. -/
def clientAt (clients : List Client) (index : Int) : Option Client :=
  if 0 ≤ index ∧ index < (clients.length : Int) then clients.get? index.toNat else none

/-- The selection step: increment the counter, compute the index, index the pool.
Returns the new counter, the index and the chosen client. -/
def selectClient (clients : List Client) (clientCounter : Int) :
    Option (Int × Int × Client) :=
  match selectIndex clientCounter clients.length with
  | none => none
  | some (c, index) =>
    match clientAt clients index with
    | none => none
    | some client => some (c, index, client)

/-- The indices of `n` successive selections made one after another, starting
from counter value `clientCounter`, on a pool of `K` clients; `none` if one of
them panics (in the remainder or in the indexing). -/
def selections (K : Nat) : Nat → Int → Option (List Int)
  | 0, _ => some []
  | n + 1, clientCounter =>
    match selectIndex clientCounter K with
    | none => none
    | some (c, index) =>
      if 0 ≤ index ∧ index < (K : Int) then
        match selections K n c with
        | none => none
        | some rest => some (index :: rest)
      else none

/-! ## Saturation benchmark (`BenchmarkMaxRequests`, tester.go 43-99) -/

/-- The state shared by the benchmark workers: the selection counter
(`clientCounter`, int32), the completion counter (`count`, int64), and the
number of error lines written to the log. -/
structure BenchState where
  clientCounter : Int
  count : Int
  errorsLogged : Nat
  deriving DecidableEq, Repr

/-- The state at worker start: `var count int64` and `var clientCounter int32 = 0`. -/
def BenchState.init : BenchState := { clientCounter := 0, count := 0, errorsLogged := 0 }

/-- One pass through the `default:` branch of a worker's loop (tester.go 76-88).
`requestOk = false` is `err != nil` from `client.Get(url)`. The error branch
only logs and the success branch only closes the body; the statement
`atomic.AddInt64(&count, 1)` follows the `if`/`else` and runs in both cases.
`none` is a panic in the selection. -/
def benchIteration (clients : List Client) (requestOk : Bool) (s : BenchState) :
    Option BenchState :=
  match selectClient clients s.clientCounter with
  | none => none
  | some (c, _, _) =>
    let logged := if requestOk then s.errorsLogged else s.errorsLogged + 1
    some { clientCounter := c, count := wrapInt64 (s.count + 1), errorsLogged := logged }

/-- The worker iterations of a run, in the order in which they take effect;
`requests` lists the outcome of each request. -/
def runBench (clients : List Client) : List Bool → BenchState → Option BenchState
  | [], s => some s
  | ok :: rest, s =>
    match benchIteration clients ok s with
    | none => none
    | some s1 => runBench clients rest s1

/-- What a call of `BenchmarkMaxRequests` did: the pool it built, the number of
workers it started, the shared state when all workers had stopped (`none` if a
worker panicked) and the returned RPS (`none` if the call panicked). -/
structure BenchRun where
  clients : List Client
  workersSpawned : Nat
  final : Option BenchState
  result : Option Int
  deriving DecidableEq, Repr

/-- The function `BenchmarkMaxRequests`. `numCPU` is `runtime.NumCPU()`;
`requests` are the outcomes of the requests the workers issue before they all
observe the closed `stop` channel. The result is `int(count) / benchmarkDuration`. -/
def BenchmarkMaxRequests (resolve : String → Option TCPAddr) (numCPU : Nat)
    (benchmarkDuration : Int) (localAddrs : List String) (requests : List Bool) :
    BenchRun :=
  let clients := buildPool resolve localAddrs
  let numWorkers := numCPU * 10
  match runBench clients requests BenchState.init with
  | none => { clients := clients, workersSpawned := numWorkers, final := none, result := none }
  | some s =>
    { clients := clients, workersSpawned := numWorkers, final := some s,
      result := goDiv s.count benchmarkDuration }

/-! ## Rate-limited dispatcher (`StartTest`, tester.go 104-155) -/

/-- The tick interval `time.Second / time.Duration(rps)`; `none` is the panic on
`rps = 0`. -/
def tickInterval (rps : Int) : Option Int := goDiv Second rps

/-- The call `time.NewTicker(d)`, which panics (`none`) on a non-positive interval. -/
def newTicker (d : Int) : Option Int := if d ≤ 0 then none else some d

/-- The sleep length of the quit goroutine, `time.Duration(duration) * time.Second`. -/
def runWindow (duration : Int) : Int := wrapInt64 (duration * Second)

/-- The phases of the dispatcher loop. `CRASHED` is the process killed by a
panic in a spawned unit. -/
inductive Phase where
  | RUNNING
  | DRAINING
  | DONE
  | CRASHED
  deriving DecidableEq, Repr

/-- How the request of one spawned unit ended. -/
inductive UnitOutcome where
  | transportError
  | response (statusCode : Int)
  deriving DecidableEq, Repr

/-- The things that can happen in the dispatcher: the ticker fires, the quit
signal arrives, a spawned unit runs to its end, `wg.Wait()` returns. -/
inductive DEvent where
  | tick
  | quit
  | unitRuns (outcome : UnitOutcome)
  | waitReturns
  deriving DecidableEq, Repr

/-- Dispatcher state: phase, units spawned (`wg.Add(1)`), units finished
(`wg.Done()`), the selection counter, and what the units wrote to the log: the
number of request-error lines and the status codes reported. -/
structure DState where
  phase : Phase
  spawned : Nat
  finished : Nat
  clientCounter : Int
  errorLines : Nat
  statusLines : List Int
  deriving DecidableEq, Repr

/-- The state on entry to the `for { select { ... } }` loop. -/
def DState.init : DState :=
  { phase := Phase.RUNNING, spawned := 0, finished := 0, clientCounter := 0,
    errorLines := 0, statusLines := [] }

/-- One step of the dispatcher (tester.go 133-155); `none` when the event cannot
happen in the state.
* `tick` (`case <-ticker.C`): only while the loop is selecting; `wg.Add(1)` and one `go`.
* `quit` (`case <-quit`): `ticker.Stop()`, then the loop is left for `wg.Wait()`.
* `unitRuns`: a spawned, unfinished unit selects a client (a panic there kills
  the process) and performs its request; on an error it logs the error and
  returns, otherwise it closes the body and logs the status code; in both cases
  the deferred `wg.Done()` runs.
* `waitReturns`: `wg.Wait()` returns when every `Add` has been matched by a
  `Done`; the completion line is printed and `StartTest` returns. -/
def step (clients : List Client) : DEvent → DState → Option DState
  | DEvent.tick, s =>
    if s.phase = Phase.RUNNING then some { s with spawned := s.spawned + 1 } else none
  | DEvent.quit, s =>
    if s.phase = Phase.RUNNING then some { s with phase := Phase.DRAINING } else none
  | DEvent.unitRuns outcome, s =>
    if (s.phase = Phase.RUNNING ∨ s.phase = Phase.DRAINING) ∧ s.finished < s.spawned then
      match selectClient clients s.clientCounter with
      | none => some { s with phase := Phase.CRASHED }
      | some (c, _, _) =>
        match outcome with
        | UnitOutcome.transportError =>
          some { s with finished := s.finished + 1, clientCounter := c,
                        errorLines := s.errorLines + 1 }
        | UnitOutcome.response statusCode =>
          some { s with finished := s.finished + 1, clientCounter := c,
                        statusLines := s.statusLines ++ [statusCode] }
    else none
  | DEvent.waitReturns, s =>
    if s.phase = Phase.DRAINING ∧ s.finished = s.spawned then
      some { s with phase := Phase.DONE }
    else none

/-- Run a sequence of events; `none` if one of them cannot happen. -/
def runEvents (clients : List Client) : List DEvent → DState → Option DState
  | [], s => some s
  | e :: rest, s =>
    match step clients e s with
    | none => none
    | some s1 => runEvents clients rest s1

/-- The join invariant: never more units finished than spawned, and in `DONE`
exactly as many. -/
def joinInvariant (s : DState) : Prop :=
  s.finished ≤ s.spawned ∧ (s.phase = Phase.DONE → s.finished = s.spawned)

/-- How a call of `StartTest` went. -/
inductive TestResult where
  /-- `time.Second / time.Duration(rps)` panicked: integer divide by zero. -/
  | panicDivideByZero
  /-- `time.NewTicker` panicked on the non-positive interval. -/
  | panicNewTicker (interval : Int)
  /-- The loop was entered with this tick interval and quit-timer length;
  `final` is the state the schedule led to. -/
  | entered (interval : Int) (window : Int) (final : Option DState)
  deriving DecidableEq, Repr

/-- What a call of `StartTest` did: the pool it built and how it went. -/
structure TestRun where
  clients : List Client
  result : TestResult
  deriving DecidableEq, Repr

/-- The function `StartTest`. `schedule` is the order in which ticks, the quit
signal and unit completions happen once the loop is entered. -/
def StartTest (resolve : String → Option TCPAddr) (rps duration : Int)
    (localAddrs : List String) (schedule : List DEvent) : TestRun :=
  let clients := buildPool resolve localAddrs
  match tickInterval rps with
  | none => { clients := clients, result := TestResult.panicDivideByZero }
  | some d =>
    match newTicker d with
    | none => { clients := clients, result := TestResult.panicNewTicker d }
    | some interval =>
      { clients := clients,
        result := TestResult.entered interval (runWindow duration)
          (runEvents clients schedule DState.init) }

/-- The number of units a call of `StartTest` spawned (one per tick). -/
def TestRun.ticks (t : TestRun) : Nat :=
  match t.result with
  | TestResult.entered _ _ (some s) => s.spawned
  | _ => 0

/-- Whether the call ended in a panic before the loop was entered. -/
def TestRun.abortedBeforeLoop (t : TestRun) : Bool :=
  match t.result with
  | TestResult.panicDivideByZero => true
  | TestResult.panicNewTicker _ => true
  | TestResult.entered _ _ _ => false

/-- Whether the call printed the completion line and returned. -/
def TestRun.completed (t : TestRun) : Bool :=
  match t.result with
  | TestResult.entered _ _ (some s) => decide (s.phase = Phase.DONE)
  | _ => false

/-! ## Run coordinator (`main`, main.go 12-40) -/

/-- The parsed command-line flags. -/
structure Config where
  url : String
  rps : Int
  duration : Int
  benchmark : Bool
  benchDuration : Int
  localAddrsFlag : String

/-- Everything `main` takes from its surroundings: address resolution, the
number of CPUs, the outcomes of the benchmark requests and the dispatcher's
schedule. -/
structure Env where
  resolve : String → Option TCPAddr
  numCPU : Nat
  benchRequests : List Bool
  testSchedule : List DEvent

/-- How a run of `main` went: the `log.Fatal` exit, or the calls it made
(`test = none` when the benchmark panicked). -/
inductive MainRun where
  | fatalMissingURL
  | ran (bench : Option BenchRun) (test : Option TestRun)
  deriving DecidableEq, Repr

/-- The flag splitting of main.go 27-30. -/
def splitLocalAddrs (localAddrsFlag : String) : List String :=
  if localAddrsFlag ≠ "" then localAddrsFlag.splitOn "," else []

/-- The rate that reaches the call of `StartTest` in `main` (main.go 33-39): the
`rps` flag, overwritten by the benchmark's result when the benchmark is
requested; `none` when `main` does not get that far. -/
def rateHandedToDispatcher (cfg : Config) (env : Env) : Option Int :=
  if cfg.url = "" then none
  else if cfg.benchmark then
    (BenchmarkMaxRequests env.resolve env.numCPU cfg.benchDuration
      (splitLocalAddrs cfg.localAddrsFlag) env.benchRequests).result
  else some cfg.rps

/-- The function `main`: the URL check is the only validation; the benchmark, if
requested, overwrites `rps`; then `StartTest` is called. -/
def main (cfg : Config) (env : Env) : MainRun :=
  if cfg.url = "" then MainRun.fatalMissingURL
  else
    let localAddrs := splitLocalAddrs cfg.localAddrsFlag
    if cfg.benchmark then
      let b := BenchmarkMaxRequests env.resolve env.numCPU cfg.benchDuration localAddrs
        env.benchRequests
      match b.result with
      | none => MainRun.ran (some b) none
      | some maxRPS =>
        MainRun.ran (some b)
          (some (StartTest env.resolve maxRPS cfg.duration localAddrs env.testSchedule))
    else
      MainRun.ran none
        (some (StartTest env.resolve cfg.rps cfg.duration localAddrs env.testSchedule))

end GoLoadTester

namespace GoLoadTester

/-! ## Machine-integer lemmas -/

theorem wrapInt32_of_range {x : Int} (h0 : -2147483648 ≤ x) (h1 : x < 2147483648) :
    wrapInt32 x = x := by
  unfold wrapInt32
  split <;> omega

theorem wrapInt64_of_range {x : Int} (h0 : -9223372036854775808 ≤ x)
    (h1 : x < 9223372036854775808) : wrapInt64 x = x := by
  unfold wrapInt64
  split <;> omega

theorem tmod_natCast (a b : Nat) : Int.tmod (a : Int) (b : Int) = ((a % b : Nat) : Int) := by
  rw [Int.tmod_eq_emod (Int.ofNat_nonneg a) (Int.ofNat_nonneg b)]
  norm_cast

/-- Below the wrap-around the selection step is `(c + 1) mod K`. -/
theorem selectIndex_of_small (c K : Nat) (hK : 1 ≤ K) (hK32 : K < 2147483648)
    (hc : c + 1 < 2147483648) :
    selectIndex (c : Int) K = some (((c + 1 : Nat) : Int), (((c + 1) % K : Nat) : Int)) := by
  have hlt : (c + 1) % K < K := Nat.mod_lt _ (by omega)
  have h1 : wrapInt32 ((c : Int) + 1) = ((c + 1 : Nat) : Int) := by
    have : ((c + 1 : Nat) : Int) = (c : Int) + 1 := by push_cast; ring
    rw [this]
    apply wrapInt32_of_range <;> omega
  have h2 : wrapInt32 (K : Int) = (K : Int) := by
    apply wrapInt32_of_range <;> omega
  have h3 : wrapInt32 (((c + 1) % K : Nat) : Int) = (((c + 1) % K : Nat) : Int) := by
    apply wrapInt32_of_range <;> omega
  have hK0 : ¬ ((K : Int) = 0) := by omega
  unfold selectIndex goRem32
  rw [h1, h2]
  simp only [if_neg hK0, tmod_natCast, h3]

/-! ## Pool lemmas -/

theorem foldl_poolLoopBody (resolve : String → Option TCPAddr) (localAddrs : List String)
    (acc : List Client) :
    localAddrs.foldl (poolLoopBody resolve) acc
      = acc ++ localAddrs.filterMap (createHTTPClient resolve) := by
  induction localAddrs generalizing acc with
  | nil => simp
  | cons a rest ih =>
    rw [List.foldl_cons, ih]
    cases h : createHTTPClient resolve a with
    | none => simp [poolLoopBody, List.filterMap_cons, h]
    | some c => simp [poolLoopBody, List.filterMap_cons, h]

theorem buildPool_eq (resolve : String → Option TCPAddr) (localAddrs : List String) :
    buildPool resolve localAddrs
      = if localAddrs.filterMap (createHTTPClient resolve) = [] then [DefaultClient]
        else localAddrs.filterMap (createHTTPClient resolve) := by
  unfold buildPool
  cases localAddrs with
  | nil => simp
  | cons a rest =>
    simp only [List.length_cons, gt_iff_lt, Nat.zero_lt_succ, if_true, foldl_poolLoopBody,
      List.nil_append]
    by_cases h : (a :: rest).filterMap (createHTTPClient resolve) = []
    · simp [h]
    · have hlen : ¬ ((a :: rest).filterMap (createHTTPClient resolve)).length = 0 := by
        intro h0
        exact h (List.length_eq_zero.mp h0)
      simp [h, hlen]

theorem buildPool_ne_nil (resolve : String → Option TCPAddr) (localAddrs : List String) :
    buildPool resolve localAddrs ≠ [] := by
  rw [buildPool_eq]
  split
  · simp
  · assumption

/-! ## C1: the pool -/

/-- C1. The pool built by `BenchmarkMaxRequests` and by `StartTest` is never
empty: it is the list of clients of the addresses that resolve, in input order,
and when that list is empty it is exactly the one default client. -/
theorem pool_is_resolved_clients_or_default (resolve : String → Option TCPAddr)
    (localAddrs : List String) (numCPU : Nat) (benchmarkDuration rps duration : Int)
    (requests : List Bool) (schedule : List DEvent) :
    (BenchmarkMaxRequests resolve numCPU benchmarkDuration localAddrs requests).clients
        = buildPool resolve localAddrs
    ∧ (StartTest resolve rps duration localAddrs schedule).clients
        = buildPool resolve localAddrs
    ∧ buildPool resolve localAddrs ≠ []
    ∧ buildPool resolve localAddrs
        = (if localAddrs.filterMap (createHTTPClient resolve) = [] then [DefaultClient]
           else localAddrs.filterMap (createHTTPClient resolve))
    ∧ (∀ a, createHTTPClient resolve a
        = (resolve (addrToResolve a)).map
            (fun tcpAddr =>
              { Transport := some { LocalAddr := tcpAddr, Timeout := 30 * Second },
                Timeout := 30 * Second })) := by
  refine ⟨?_, ?_, buildPool_ne_nil resolve localAddrs, buildPool_eq resolve localAddrs, ?_⟩
  · unfold BenchmarkMaxRequests
    dsimp only
    cases runBench (buildPool resolve localAddrs) requests BenchState.init <;> rfl
  · unfold StartTest
    dsimp only
    cases tickInterval rps with
    | none => rfl
    | some d =>
      dsimp only
      cases newTicker d <;> rfl
  · intro a
    unfold createHTTPClient
    cases resolve (addrToResolve a) <;> rfl

/-! ## C2: the selection index after the counter wraps -/

/-- C2 (evaluation at the failing input). With the counter at `2^31 - 1` and a
pool of three clients, the atomic add wraps to `-2^31`, the remainder is `-2`,
and indexing the pool with it panics. -/
theorem selectIndex_wraps_to_negative_index :
    selectIndex 2147483647 3 = some (-2147483648, -2)
    ∧ selectClient [DefaultClient, DefaultClient, DefaultClient] 2147483647 = none := by
  decide

/-! ## C3: the timeout of the fallback client -/

/-- C3 (evaluation at the failing input). With no local address the pool is the
one default client, whose `Timeout` is zero (no timeout), not 30 seconds; the
same holds when every address fails to resolve. -/
theorem fallback_client_has_no_timeout (resolve : String → Option TCPAddr) :
    buildPool resolve [] = [DefaultClient]
    ∧ buildPool (fun _ => none) ["10.0.0.1", "bad address"] = [DefaultClient]
    ∧ DefaultClient.Timeout = 0
    ∧ DefaultClient.Timeout ≠ 30 * Second := by
  refine ⟨by simp [buildPool], by decide, rfl, by decide⟩

/-! ## C7: sequential round-robin -/

theorem selections_of_small (K : Nat) (hK : 1 ≤ K) (hK32 : K < 2147483648) :
    ∀ (n c : Nat), c + n < 2147483648 →
      selections K n (c : Int)
        = some ((List.range n).map (fun i => (((c + i + 1) % K : Nat) : Int))) := by
  intro n
  induction n with
  | zero => intro c _; simp [selections]
  | succ n ih =>
    intro c hc
    have hlt : (c + 1) % K < K := Nat.mod_lt _ (by omega)
    have hcond : (0 : Int) ≤ (((c + 1) % K : Nat) : Int)
        ∧ (((c + 1) % K : Nat) : Int) < (K : Int) := by
      constructor <;> omega
    have hrec := ih (c + 1) (by omega)
    have hfun : (fun i => (((c + 1 + i + 1) % K : Nat) : Int))
        = (fun i => (((c + i + 1) % K : Nat) : Int)) ∘ Nat.succ := by
      funext i
      simp only [Function.comp, Nat.succ_eq_add_one]
      congr 2
      omega
    unfold selections
    rw [selectIndex_of_small c K hK hK32 (by omega)]
    simp only [hcond, and_self, if_true, hrec]
    rw [List.range_succ_eq_map, List.map_cons, List.map_map, hfun]

theorem succ_mod_eq_iff_modEq (K i j : Nat) (hK : 1 ≤ K) (hj : j < K) :
    (i + 1) % K = j ↔ i ≡ j + K - 1 [MOD K] := by
  have e1 : (i + 1) % K = j ↔ i + 1 ≡ j [MOD K] := by
    unfold Nat.ModEq
    rw [Nat.mod_eq_of_lt hj]
  have e2 : j + K - 1 + 1 = j + K := by omega
  have e3 : j + K ≡ j [MOD K] := by
    unfold Nat.ModEq
    simp
  rw [e1]
  constructor
  · intro h
    have h2 : i + 1 ≡ j + K - 1 + 1 [MOD K] := by
      rw [e2]
      exact h.trans e3.symm
    exact Nat.ModEq.add_right_cancel' 1 h2
  · intro h
    have h2 : i + 1 ≡ j + K - 1 + 1 [MOD K] := Nat.ModEq.add_right 1 h
    rw [e2] at h2
    exact h2.trans e3

theorem count_residue (K N j : Nat) (hK : 1 ≤ K) (hj : j < K) :
    ((List.range N).map (fun i => (((i + 1) % K : Nat) : Int))).count (j : Int)
      = N / K + if (j + K - 1) % K < N % K then 1 else 0 := by
  rw [← Nat.count_modEq_card N (by omega : 0 < K) (j + K - 1)]
  unfold Nat.count
  rw [List.count_eq_countP, List.countP_map]
  apply List.countP_congr
  intro i _
  simp only [Function.comp, beq_iff_eq, decide_eq_true_eq]
  rw [← succ_mod_eq_iff_modEq K i j hK hj]
  exact Int.ofNat_inj

/-- C7. Starting from counter 0 and selecting one after another on a pool of
`K` clients (`1 ≤ K`, and `K` below `2^31` so that `int32(len(clients))` is `K`),
`N < 2^31` selections produce the indices `i mod K` for `i = 1..N`; every index
below `K` is chosen at least `N / K` and at most `N / K + 1` times. -/
theorem round_robin_sequential (K N : Nat) (hK : 1 ≤ K) (hK32 : K < 2147483648)
    (hN : N < 2147483648) :
    selections K N 0
        = some ((List.range N).map (fun i => (((i + 1) % K : Nat) : Int)))
    ∧ ∀ j : Nat, j < K →
        N / K ≤ ((List.range N).map (fun i => (((i + 1) % K : Nat) : Int))).count (j : Int)
        ∧ ((List.range N).map (fun i => (((i + 1) % K : Nat) : Int))).count (j : Int)
            ≤ N / K + 1 := by
  constructor
  · have h := selections_of_small K hK hK32 N 0 (by omega)
    simpa using h
  · intro j hj
    rw [count_residue K N j hK hj]
    constructor
    · exact Nat.le_add_right _ _
    · split <;> omega

/-- Witness for C7: seven selections on a pool of three clients. -/
theorem round_robin_sequential_witness :
    selections 3 7 0
        = some ((List.range 7).map (fun i => (((i + 1) % 3 : Nat) : Int)))
    ∧ ∀ j : Nat, j < 3 →
        7 / 3 ≤ ((List.range 7).map (fun i => (((i + 1) % 3 : Nat) : Int))).count (j : Int)
        ∧ ((List.range 7).map (fun i => (((i + 1) % 3 : Nat) : Int))).count (j : Int)
            ≤ 7 / 3 + 1 :=
  round_robin_sequential 3 7 (by decide) (by decide) (by decide)

/-! ## Benchmark counting lemmas -/

theorem wrapInt64_succ_add (x : Int) (n : Nat) :
    wrapInt64 (wrapInt64 (x + 1) + (n : Int)) = wrapInt64 (x + ((n + 1 : Nat) : Int)) := by
  unfold wrapInt64
  push_cast
  split <;> split <;> split <;> omega

theorem wrapInt64_idem (x : Int) : wrapInt64 (wrapInt64 x) = wrapInt64 x := by
  unfold wrapInt64
  split <;> split <;> omega

theorem benchIteration_count (clients : List Client) (ok : Bool) (s s1 : BenchState)
    (h : benchIteration clients ok s = some s1) :
    s1.count = wrapInt64 (s.count + 1)
    ∧ s1.errorsLogged = s.errorsLogged + (if ok then 0 else 1) := by
  unfold benchIteration at h
  cases hsel : selectClient clients s.clientCounter with
  | none => simp [hsel] at h
  | some r =>
    obtain ⟨c, i, cl⟩ := r
    simp only [hsel, Option.some.injEq] at h
    subst h
    cases ok <;> simp

theorem runBench_count (clients : List Client) :
    ∀ (requests : List Bool) (s s1 : BenchState), wrapInt64 s.count = s.count →
      runBench clients requests s = some s1 →
      s1.count = wrapInt64 (s.count + (requests.length : Int))
      ∧ s1.errorsLogged = s.errorsLogged + requests.count false := by
  intro requests
  induction requests with
  | nil =>
    intro s s1 hs h
    simp only [runBench, Option.some.injEq] at h
    subst h
    constructor
    · simp only [List.length_nil, Nat.cast_zero, add_zero]
      exact hs.symm
    · simp
  | cons ok rest ih =>
    intro s s1 _ h
    unfold runBench at h
    cases hit : benchIteration clients ok s with
    | none => simp [hit] at h
    | some s2 =>
      simp only [hit] at h
      obtain ⟨hc, he⟩ := benchIteration_count clients ok s s2 hit
      obtain ⟨hc2, he2⟩ := ih s2 s1 (by rw [hc]; exact wrapInt64_idem _) h
      constructor
      · rw [hc2, hc, List.length_cons]
        exact wrapInt64_succ_add s.count rest.length
      · rw [he2, he]
        cases ok
        · simp
          omega
        · simp

theorem runBench_take (clients : List Client) :
    ∀ (requests : List Bool) (s s1 : BenchState), runBench clients requests s = some s1 →
      ∀ k : Nat, ∃ sk, runBench clients (requests.take k) s = some sk := by
  intro requests
  induction requests with
  | nil =>
    intro s s1 _ k
    exact ⟨s, by simp [runBench]⟩
  | cons ok rest ih =>
    intro s s1 h k
    cases k with
    | zero => exact ⟨s, by simp [runBench]⟩
    | succ k =>
      unfold runBench at h
      cases hit : benchIteration clients ok s with
      | none => simp [hit] at h
      | some s2 =>
        simp only [hit] at h
        obtain ⟨sk, hsk⟩ := ih s2 s1 h k
        refine ⟨sk, ?_⟩
        rw [List.take_succ_cons]
        unfold runBench
        simp only [hit]
        exact hsk

theorem clientAt_of_lt (clients : List Client) (i : Nat) (h : i < clients.length) :
    clientAt clients (i : Int) = some (clients.get ⟨i, h⟩) := by
  unfold clientAt
  have hc : (0 : Int) ≤ (i : Int) ∧ (i : Int) < (clients.length : Int) := by
    constructor <;> omega
  rw [if_pos hc, Int.toNat_ofNat, List.get?_eq_get h]

/-- Below the wrap-around of the selection counter no worker iteration panics. -/
theorem runBench_total (clients : List Client) (hK : 1 ≤ clients.length)
    (hK32 : clients.length < 2147483648) :
    ∀ (requests : List Bool) (c : Nat) (count : Int) (logged : Nat),
      c + requests.length < 2147483648 →
      ∃ s1, runBench clients requests
        { clientCounter := (c : Int), count := count, errorsLogged := logged } = some s1 := by
  intro requests
  induction requests with
  | nil =>
    intro c count logged _
    exact ⟨_, rfl⟩
  | cons ok rest ih =>
    intro c count logged hc
    rw [List.length_cons] at hc
    have hlt : (c + 1) % clients.length < clients.length := Nat.mod_lt _ (by omega)
    have hsel : selectClient clients (c : Int)
        = some (((c + 1 : Nat) : Int), (((c + 1) % clients.length : Nat) : Int),
            clients.get ⟨(c + 1) % clients.length, hlt⟩) := by
      unfold selectClient
      rw [selectIndex_of_small c clients.length hK hK32 (by omega)]
      dsimp only
      rw [clientAt_of_lt clients _ hlt]
    obtain ⟨s1, hs1⟩ := ih (c + 1) (wrapInt64 (count + 1))
      (if ok then logged else logged + 1) (by omega)
    refine ⟨s1, ?_⟩
    unfold runBench benchIteration
    dsimp only
    rw [hsel]
    exact hs1

theorem goDiv_of_nonneg (c d : Int) (hc0 : 0 ≤ c) (hc : c < 9223372036854775808)
    (hd : 0 < d) : goDiv c d = some (c / d) := by
  have hd0 : ¬ d = 0 := by omega
  have hq0 : 0 ≤ c / d := Int.ediv_nonneg hc0 (le_of_lt hd)
  have hq1 : c / d ≤ c := Int.ediv_le_self d hc0
  unfold goDiv
  rw [if_neg hd0, Int.tdiv_eq_ediv hc0 (le_of_lt hd)]
  rw [wrapInt64_of_range (by omega) (by omega)]

theorem floor_ratio (c d : Int) (hd : 0 < d) : ⌊(c : ℚ) / (d : ℚ)⌋ = c / d := by
  obtain ⟨n, rfl⟩ := Int.eq_ofNat_of_zero_le (le_of_lt hd)
  rw [Int.cast_natCast]
  exact Rat.floor_intCast_div_natCast c n

/-- Below the wrap-around of the selection counter, and with a non-zero
duration, `BenchmarkMaxRequests` returns a result. -/
theorem BenchmarkMaxRequests_returns (resolve : String → Option TCPAddr) (numCPU : Nat)
    (d : Int) (localAddrs : List String) (requests : List Bool) (hd : d ≠ 0)
    (hK32 : (buildPool resolve localAddrs).length < 2147483648)
    (hlen : requests.length < 2147483648) :
    ∃ s rps, (BenchmarkMaxRequests resolve numCPU d localAddrs requests).final = some s
      ∧ (BenchmarkMaxRequests resolve numCPU d localAddrs requests).result = some rps := by
  have hK : 1 ≤ (buildPool resolve localAddrs).length := by
    have hne := buildPool_ne_nil resolve localAddrs
    cases hp : buildPool resolve localAddrs with
    | nil => exact absurd hp hne
    | cons c rest => simp
  obtain ⟨s, hs⟩ := runBench_total (buildPool resolve localAddrs) hK hK32 requests 0 0 0
    (by omega)
  have hs2 : runBench (buildPool resolve localAddrs) requests BenchState.init = some s := hs
  refine ⟨s, wrapInt64 (Int.tdiv s.count d), ?_, ?_⟩
  · unfold BenchmarkMaxRequests
    simp only [hs2]
  · unfold BenchmarkMaxRequests
    simp only [hs2]
    unfold goDiv
    rw [if_neg hd]

/-! ## C6: the reported RPS -/

/-- C6. When the workers have stopped with the completion counter at `c`
(after fewer than `2^63` iterations) and the benchmark duration is `d > 0`,
`BenchmarkMaxRequests` returns `floor(c / d)`. The counter starts at `0`, every
iteration replaces it by the (wrapped) successor, and after the first `k`
iterations of the run it is `k`: non-negative and non-decreasing. -/
theorem benchmark_rps_is_floor_of_count (resolve : String → Option TCPAddr) (numCPU : Nat)
    (d : Int) (localAddrs : List String) (requests : List Bool) (s : BenchState)
    (hd : 0 < d) (hlen : (requests.length : Int) < 9223372036854775808)
    (hrun : (BenchmarkMaxRequests resolve numCPU d localAddrs requests).final = some s) :
    (BenchmarkMaxRequests resolve numCPU d localAddrs requests).result
        = some ⌊(s.count : ℚ) / (d : ℚ)⌋
    ∧ BenchState.init.count = 0
    ∧ 0 ≤ s.count
    ∧ s.count = (requests.length : Int)
    ∧ (∀ (ok : Bool) (s0 s1 : BenchState),
        benchIteration (buildPool resolve localAddrs) ok s0 = some s1 →
          s1.count = wrapInt64 (s0.count + 1))
    ∧ (∀ k : Nat, k ≤ requests.length →
        ∃ sk, runBench (buildPool resolve localAddrs) (requests.take k) BenchState.init
            = some sk ∧ sk.count = (k : Int)) := by
  have hinit : wrapInt64 BenchState.init.count = BenchState.init.count := by decide
  have hrun2 : runBench (buildPool resolve localAddrs) requests BenchState.init = some s := by
    unfold BenchmarkMaxRequests at hrun
    cases hr : runBench (buildPool resolve localAddrs) requests BenchState.init with
    | none => simp [hr] at hrun
    | some s2 =>
      simp only [hr, Option.some.injEq] at hrun
      rw [hrun]
  have hcount : s.count = (requests.length : Int) := by
    have h := (runBench_count _ requests _ s hinit hrun2).1
    rw [h]
    have h0 : BenchState.init.count = 0 := rfl
    rw [h0, zero_add]
    exact wrapInt64_of_range (by omega) hlen
  have hres : (BenchmarkMaxRequests resolve numCPU d localAddrs requests).result
      = goDiv s.count d := by
    unfold BenchmarkMaxRequests
    simp only [hrun2]
  refine ⟨?_, rfl, by omega, hcount, ?_, ?_⟩
  · rw [hres, floor_ratio s.count d hd]
    exact goDiv_of_nonneg s.count d (by omega) (by omega) hd
  · intro ok s0 s1 h
    exact (benchIteration_count _ ok s0 s1 h).1
  · intro k hk
    obtain ⟨sk, hsk⟩ := runBench_take _ requests _ s hrun2 k
    refine ⟨sk, hsk, ?_⟩
    have h := (runBench_count _ (requests.take k) _ sk hinit hsk).1
    rw [h]
    have h0 : BenchState.init.count = 0 := rfl
    rw [h0, zero_add, List.length_take, Nat.min_eq_left hk]
    exact wrapInt64_of_range (by omega) (by omega)

/-- Witness for C6: seven requests (two of them failing) in a two-second
benchmark on the default pool. -/
theorem benchmark_rps_is_floor_of_count_witness :
    (BenchmarkMaxRequests (fun _ => none) 1 2 []
        [true, true, false, true, false, true, true]).result
        = some ⌊(((⟨7, 7, 2⟩ : BenchState).count : Int) : ℚ) / ((2 : Int) : ℚ)⌋
    ∧ BenchState.init.count = 0
    ∧ 0 ≤ (⟨7, 7, 2⟩ : BenchState).count
    ∧ (⟨7, 7, 2⟩ : BenchState).count
        = (([true, true, false, true, false, true, true].length : Nat) : Int)
    ∧ (∀ (ok : Bool) (s0 s1 : BenchState),
        benchIteration (buildPool (fun _ => none) []) ok s0 = some s1 →
          s1.count = wrapInt64 (s0.count + 1))
    ∧ (∀ k : Nat, k ≤ [true, true, false, true, false, true, true].length →
        ∃ sk, runBench (buildPool (fun _ => none) [])
            ([true, true, false, true, false, true, true].take k) BenchState.init
            = some sk ∧ sk.count = (k : Int)) :=
  benchmark_rps_is_floor_of_count (fun _ => none) 1 2 []
    [true, true, false, true, false, true, true] ⟨7, 7, 2⟩ (by decide) (by decide)
    (by decide)

/-! ## C4: failed requests in the benchmark -/

/-- C4 (counterexample). One request that fails with a transport error: the
completion counter goes from `0` to `1` and the reported RPS for a one-second
benchmark is `1`, while the number of requests that succeeded is `0`. -/
theorem failed_request_is_counted :
    (BenchmarkMaxRequests (fun _ => none) 1 1 [] [false]).final
        = some { clientCounter := 1, count := 1, errorsLogged := 1 }
    ∧ (BenchmarkMaxRequests (fun _ => none) 1 1 [] [false]).result = some 1
    ∧ List.count true [false] = 0 := by
  decide

/-- C4 (amended). In a benchmark run that reaches the RPS computation (fewer
than `2^63` requests), the completion count equals the number of requests
issued, the failed ones included: it is the number of successes plus the
number of failures, and every failure is also logged. A single failed request
raises the count by one, as a successful one does. -/
theorem completion_count_is_total_requests (clients : List Client) (requests : List Bool)
    (s : BenchState) (hlen : (requests.length : Int) < 9223372036854775808)
    (hrun : runBench clients requests BenchState.init = some s) :
    s.count = ((requests.count true + requests.count false : Nat) : Int)
    ∧ s.errorsLogged = requests.count false
    ∧ (∀ (s0 s1 : BenchState), benchIteration clients false s0 = some s1 →
        s1.count = wrapInt64 (s0.count + 1) ∧ s1.errorsLogged = s0.errorsLogged + 1)
    ∧ (∀ (s0 s1 : BenchState), benchIteration clients true s0 = some s1 →
        s1.count = wrapInt64 (s0.count + 1) ∧ s1.errorsLogged = s0.errorsLogged) := by
  have hinit : wrapInt64 BenchState.init.count = BenchState.init.count := by decide
  obtain ⟨hc, he⟩ := runBench_count clients requests _ s hinit hrun
  have hsum : requests.count true + requests.count false = requests.length := by
    clear hc he hrun hlen
    induction requests with
    | nil => rfl
    | cons b rest ih =>
      cases b
      · simp only [List.count_cons, List.length_cons]
        simp
        omega
      · simp only [List.count_cons, List.length_cons]
        simp
        omega
  refine ⟨?_, ?_, ?_, ?_⟩
  · rw [hc, hsum]
    have h0 : BenchState.init.count = 0 := rfl
    rw [h0, zero_add]
    exact wrapInt64_of_range (by omega) hlen
  · rw [he]
    have h0 : BenchState.init.errorsLogged = 0 := rfl
    rw [h0, zero_add]
  · intro s0 s1 h
    have := benchIteration_count clients false s0 s1 h
    simpa using this
  · intro s0 s1 h
    have := benchIteration_count clients true s0 s1 h
    simpa using this

/-- Witness for C4 (amended): three requests, the middle one failing, on the
default pool. -/
theorem completion_count_is_total_requests_witness :
    (⟨3, 3, 1⟩ : BenchState).count
        = (([true, false, true].count true + [true, false, true].count false : Nat) : Int)
    ∧ (⟨3, 3, 1⟩ : BenchState).errorsLogged = [true, false, true].count false
    ∧ (∀ (s0 s1 : BenchState), benchIteration [DefaultClient] false s0 = some s1 →
        s1.count = wrapInt64 (s0.count + 1) ∧ s1.errorsLogged = s0.errorsLogged + 1)
    ∧ (∀ (s0 s1 : BenchState), benchIteration [DefaultClient] true s0 = some s1 →
        s1.count = wrapInt64 (s0.count + 1) ∧ s1.errorsLogged = s0.errorsLogged) :=
  completion_count_is_total_requests [DefaultClient] [true, false, true] ⟨3, 3, 1⟩
    (by decide) (by decide)

/-! ## C8: the tick interval -/

/-- C8 (counterexample). At `2 * 10^9` requests per second the interval
`time.Second / time.Duration(rps)` is `0`, not positive, and `time.NewTicker`
panics, so `StartTest` never enters its loop. At 30000 requests per second the
interval is `33333 ns`, 30000 of them are `10000 ns` short of a second, and the
quotient of a 10-second window by the interval is 300003, three more than
`10 * 30000`. -/
theorem tick_interval_zero_above_1e9 :
    tickInterval 2000000000 = some 0
    ∧ newTicker 0 = none
    ∧ (StartTest (fun _ => none) 2000000000 10 [] []).result = TestResult.panicNewTicker 0
    ∧ tickInterval 30000 = some 33333
    ∧ (30000 : Int) * 33333 + 10000 = Second
    ∧ runWindow 10 / 33333 = 300003 := by
  decide

/-- C8 (amended). For every rate `rps ≥ 1` the tick interval the dispatcher
computes is `10^9 div rps` nanoseconds, the truncated quotient
(`rps * (10^9 div rps) + 10^9 mod rps = 10^9`), and it is positive exactly when
`rps ≤ 10^9`. In that case `time.NewTicker` accepts it and `StartTest` enters
its loop with this interval and, for a duration of at least one second whose
nanosecond length fits `int64`, a quit timer of `duration * 10^9` nanoseconds.
For `rps > 10^9` the interval is `0` and `time.NewTicker` panics before the
loop. Nothing is stated about the number of ticks. -/
theorem tick_interval_positive_iff (resolve : String → Option TCPAddr) (rps duration : Int)
    (localAddrs : List String) (schedule : List DEvent) (h1 : 1 ≤ rps) (h3 : 1 ≤ duration)
    (h4 : duration * 1000000000 < 9223372036854775808) :
    tickInterval rps = some (1000000000 / rps)
    ∧ (0 < 1000000000 / rps ↔ rps ≤ 1000000000)
    ∧ rps * (1000000000 / rps) + 1000000000 % rps = 1000000000
    ∧ 0 ≤ 1000000000 % rps
    ∧ 1000000000 % rps < rps
    ∧ runWindow duration = duration * 1000000000
    ∧ (rps ≤ 1000000000 →
        newTicker (1000000000 / rps) = some (1000000000 / rps)
        ∧ (StartTest resolve rps duration localAddrs schedule).result
            = TestResult.entered (1000000000 / rps) (duration * 1000000000)
                (runEvents (buildPool resolve localAddrs) schedule DState.init))
    ∧ (1000000000 < rps →
        1000000000 / rps = 0
        ∧ newTicker (1000000000 / rps) = none
        ∧ (StartTest resolve rps duration localAddrs schedule).result
            = TestResult.panicNewTicker 0) := by
  have hrps : (0 : Int) < rps := by omega
  have hS : Second = 1000000000 := rfl
  have hint : tickInterval rps = some (1000000000 / rps) := by
    unfold tickInterval
    rw [hS]
    exact goDiv_of_nonneg 1000000000 rps (by decide) (by decide) hrps
  have hwin : runWindow duration = duration * 1000000000 := by
    unfold runWindow
    rw [hS]
    exact wrapInt64_of_range (by omega) h4
  have hpos : rps ≤ 1000000000 → 1 ≤ 1000000000 / rps := by
    intro h2
    rw [Int.le_ediv_iff_mul_le hrps]
    omega
  have hzero : 1000000000 < rps → 1000000000 / rps = 0 := by
    intro h2
    exact Int.ediv_eq_zero_of_lt (by decide) h2
  refine ⟨hint, ?_, Int.ediv_add_emod 1000000000 rps, Int.emod_nonneg _ (by omega),
    Int.emod_lt_of_pos _ hrps, hwin, ?_, ?_⟩
  · constructor
    · intro h
      by_contra hlt
      have := hzero (by omega)
      omega
    · intro h2
      have := hpos h2
      omega
  · intro h2
    have hq := hpos h2
    have hnew : newTicker (1000000000 / rps) = some (1000000000 / rps) := by
      unfold newTicker
      rw [if_neg (by omega)]
    refine ⟨hnew, ?_⟩
    unfold StartTest
    dsimp only
    rw [hint]
    dsimp only
    rw [hnew, hwin]
  · intro h2
    have hq := hzero h2
    have hnew : newTicker (1000000000 / rps) = none := by
      unfold newTicker
      rw [if_pos (by omega)]
    refine ⟨hq, hnew, ?_⟩
    unfold StartTest
    dsimp only
    rw [hint]
    dsimp only
    rw [hnew, hq]

/-- Witness for C8 (amended): 7 requests per second for 3 seconds; the interval
is `142857142 ns` and the loop is entered with a quit timer of `3 * 10^9 ns`. -/
theorem tick_interval_positive_iff_witness :
    tickInterval 7 = some (1000000000 / 7)
    ∧ (0 < (1000000000 : Int) / 7 ↔ (7 : Int) ≤ 1000000000)
    ∧ (StartTest (fun _ => none) 7 3 [] [DEvent.quit, DEvent.waitReturns]).result
        = TestResult.entered 142857142 3000000000
            (some (DState.mk Phase.DONE 0 0 0 0 [])) :=
  ⟨(tick_interval_positive_iff (fun _ => none) 7 3 [] [DEvent.quit, DEvent.waitReturns]
      (by decide) (by decide) (by decide)).1,
   (tick_interval_positive_iff (fun _ => none) 7 3 [] [DEvent.quit, DEvent.waitReturns]
      (by decide) (by decide) (by decide)).2.1,
   by decide⟩

/-! ## C9: the dispatcher loop -/

/-- What a successful step can be. -/
theorem step_cases (clients : List Client) (e : DEvent) (s s1 : DState)
    (h : step clients e s = some s1) :
    (e = DEvent.tick ∧ s.phase = Phase.RUNNING
        ∧ s1 = { s with spawned := s.spawned + 1 })
    ∨ (e = DEvent.quit ∧ s.phase = Phase.RUNNING
        ∧ s1 = { s with phase := Phase.DRAINING })
    ∨ ((∃ o, e = DEvent.unitRuns o)
        ∧ (s.phase = Phase.RUNNING ∨ s.phase = Phase.DRAINING) ∧ s.finished < s.spawned
        ∧ (s1 = { s with phase := Phase.CRASHED }
            ∨ ∃ c n l, s1 = { s with finished := s.finished + 1, clientCounter := c,
                                     errorLines := n, statusLines := l }))
    ∨ (e = DEvent.waitReturns ∧ s.phase = Phase.DRAINING ∧ s.finished = s.spawned
        ∧ s1 = { s with phase := Phase.DONE }) := by
  cases e with
  | tick =>
    simp only [step] at h
    split at h
    · rename_i hp
      simp only [Option.some.injEq] at h
      exact Or.inl ⟨rfl, hp, h.symm⟩
    · simp at h
  | quit =>
    simp only [step] at h
    split at h
    · rename_i hp
      simp only [Option.some.injEq] at h
      exact Or.inr (Or.inl ⟨rfl, hp, h.symm⟩)
    · simp at h
  | unitRuns o =>
    simp only [step] at h
    split at h
    · rename_i hp
      refine Or.inr (Or.inr (Or.inl ⟨⟨o, rfl⟩, hp.1, hp.2, ?_⟩))
      cases hsel : selectClient clients s.clientCounter with
      | none =>
        simp only [hsel, Option.some.injEq] at h
        exact Or.inl h.symm
      | some r =>
        obtain ⟨c, i, cl⟩ := r
        simp only [hsel] at h
        cases o with
        | transportError =>
          simp only [Option.some.injEq] at h
          exact Or.inr ⟨c, _, _, h.symm⟩
        | response code =>
          simp only [Option.some.injEq] at h
          exact Or.inr ⟨c, _, _, h.symm⟩
    · simp at h
  | waitReturns =>
    simp only [step] at h
    split at h
    · rename_i hp
      simp only [Option.some.injEq] at h
      exact Or.inr (Or.inr (Or.inr ⟨rfl, hp.1, hp.2, h.symm⟩))
    · simp at h

theorem step_preserves_joinInvariant (clients : List Client) (e : DEvent) (s s1 : DState)
    (h : step clients e s = some s1) (hinv : joinInvariant s) : joinInvariant s1 := by
  obtain ⟨hle, hdone⟩ := hinv
  rcases step_cases clients e s s1 h with
    ⟨_, hp, rfl⟩ | ⟨_, hp, rfl⟩ | ⟨_, hp, hlt, rfl | ⟨c, n, l, rfl⟩⟩ | ⟨_, hp, heq, rfl⟩
  · refine ⟨Nat.le_succ_of_le hle, ?_⟩
    intro hd
    simp only at hd
    rw [hp] at hd
    cases hd
  · refine ⟨hle, ?_⟩
    intro hd
    cases hd
  · refine ⟨hle, ?_⟩
    intro hd
    cases hd
  · refine ⟨hlt, ?_⟩
    intro hd
    simp only at hd
    rcases hp with hp | hp <;> rw [hp] at hd <;> cases hd
  · exact ⟨hle, fun _ => heq⟩

theorem runEvents_preserves_joinInvariant (clients : List Client) :
    ∀ (events : List DEvent) (s s1 : DState), runEvents clients events s = some s1 →
      joinInvariant s → joinInvariant s1 := by
  intro events
  induction events with
  | nil =>
    intro s s1 h hinv
    simp only [runEvents, Option.some.injEq] at h
    rw [← h]
    exact hinv
  | cons e rest ih =>
    intro s s1 h hinv
    unfold runEvents at h
    cases hst : step clients e s with
    | none => simp [hst] at h
    | some s2 =>
      simp only [hst] at h
      exact ih s2 s1 h (step_preserves_joinInvariant clients e s s2 hst hinv)

theorem step_after_quit (clients : List Client) (e : DEvent) (s s1 : DState)
    (h : step clients e s = some s1) (hp : s.phase ≠ Phase.RUNNING) :
    s1.spawned = s.spawned ∧ s1.phase ≠ Phase.RUNNING := by
  rcases step_cases clients e s s1 h with
    ⟨_, hq, _⟩ | ⟨_, hq, _⟩ | ⟨_, hq, _, rfl | ⟨c, n, l, rfl⟩⟩ | ⟨_, _, _, rfl⟩
  · exact absurd hq hp
  · exact absurd hq hp
  · exact ⟨rfl, by simp⟩
  · exact ⟨rfl, hp⟩
  · exact ⟨rfl, by simp⟩

theorem runEvents_after_quit (clients : List Client) :
    ∀ (events : List DEvent) (s s1 : DState), runEvents clients events s = some s1 →
      s.phase ≠ Phase.RUNNING → s1.spawned = s.spawned ∧ s1.phase ≠ Phase.RUNNING := by
  intro events
  induction events with
  | nil =>
    intro s s1 h hp
    simp only [runEvents, Option.some.injEq] at h
    rw [← h]
    exact ⟨rfl, hp⟩
  | cons e rest ih =>
    intro s s1 h hp
    unfold runEvents at h
    cases hst : step clients e s with
    | none => simp [hst] at h
    | some s2 =>
      simp only [hst] at h
      obtain ⟨h1, h2⟩ := step_after_quit clients e s s2 hst hp
      obtain ⟨h3, h4⟩ := ih s2 s1 h h2
      exact ⟨h3.trans h1, h4⟩

/-- C9. In every state `s` the dispatcher can reach from its initial state:
no more units have finished than were spawned, and in `DONE` all of them have;
a tick happens only in `RUNNING` and spawns exactly one unit; every other step
leaves the number of spawned units alone; the quit signal leads to `DRAINING`,
and from any state past `RUNNING` no later run of events spawns a unit or
returns to `RUNNING`; `wg.Wait()` returns, giving `DONE`, only when
`finished = spawned`; and whenever a unit can run to its end with one outcome
(a transport error, or a response of any status code) it can with any other,
with the same phase and the same numbers of spawned and finished units: it
counts as finished either way, and the outcome shows only in the log. -/
theorem dispatcher_join_barrier (clients : List Client) (events : List DEvent) (s : DState)
    (h : runEvents clients events DState.init = some s) :
    s.finished ≤ s.spawned
    ∧ (s.phase = Phase.DONE → s.finished = s.spawned)
    ∧ (∀ s1, step clients DEvent.tick s = some s1 →
        s.phase = Phase.RUNNING ∧ s1.spawned = s.spawned + 1 ∧ s1.finished = s.finished)
    ∧ (∀ e s1, step clients e s = some s1 → e ≠ DEvent.tick → s1.spawned = s.spawned)
    ∧ (∀ s1, step clients DEvent.quit s = some s1 →
        s1.phase = Phase.DRAINING ∧ s1.spawned = s.spawned)
    ∧ (∀ later s2, s.phase ≠ Phase.RUNNING → runEvents clients later s = some s2 →
        s2.spawned = s.spawned ∧ s2.phase ≠ Phase.RUNNING)
    ∧ (∀ s1, step clients DEvent.waitReturns s = some s1 →
        s.finished = s.spawned ∧ s1.phase = Phase.DONE)
    ∧ (∀ e s1, step clients e s = some s1 → s1.phase = Phase.DONE →
        e = DEvent.waitReturns ∧ s1.finished = s1.spawned)
    ∧ (∀ o1 o2 s1, step clients (DEvent.unitRuns o1) s = some s1 →
        ∃ s2, step clients (DEvent.unitRuns o2) s = some s2
          ∧ s2.phase = s1.phase ∧ s2.spawned = s1.spawned ∧ s2.finished = s1.finished
          ∧ (s1.phase = Phase.CRASHED ∨ s1.finished = s.finished + 1)) := by
  have hinit : joinInvariant DState.init := ⟨Nat.le_refl _, fun _ => rfl⟩
  obtain ⟨hle, hdone⟩ := runEvents_preserves_joinInvariant clients events _ s h hinit
  refine ⟨hle, hdone, ?_, ?_, ?_, ?_, ?_, ?_, ?_⟩
  · intro s1 hs
    rcases step_cases clients _ s s1 hs with
      ⟨_, hp, rfl⟩ | ⟨he, _⟩ | ⟨⟨o, he⟩, _⟩ | ⟨he, _⟩
    · exact ⟨hp, rfl, rfl⟩
    · cases he
    · cases he
    · cases he
  · intro e s1 hs hne
    rcases step_cases clients e s s1 hs with
      ⟨he, _⟩ | ⟨_, _, rfl⟩ | ⟨_, _, _, rfl | ⟨c, n, l, rfl⟩⟩ | ⟨_, _, _, rfl⟩
    · exact absurd he hne
    · rfl
    · rfl
    · rfl
    · rfl
  · intro s1 hs
    rcases step_cases clients _ s s1 hs with
      ⟨he, _⟩ | ⟨_, _, rfl⟩ | ⟨⟨o, he⟩, _⟩ | ⟨he, _⟩
    · cases he
    · exact ⟨rfl, rfl⟩
    · cases he
    · cases he
  · intro later s2 hp hrun
    exact runEvents_after_quit clients later s s2 hrun hp
  · intro s1 hs
    rcases step_cases clients _ s s1 hs with
      ⟨he, _⟩ | ⟨he, _⟩ | ⟨⟨o, he⟩, _⟩ | ⟨_, _, heq, rfl⟩
    · cases he
    · cases he
    · cases he
    · exact ⟨heq, rfl⟩
  · intro e s1 hs hd
    have hinv1 := step_preserves_joinInvariant clients e s s1 hs ⟨hle, hdone⟩
    refine ⟨?_, hinv1.2 hd⟩
    rcases step_cases clients e s s1 hs with
      ⟨_, hp, rfl⟩ | ⟨_, _, rfl⟩ | ⟨_, hp, _, rfl | ⟨c, n, l, rfl⟩⟩ | ⟨he, _⟩
    · simp only at hd
      rw [hp] at hd
      cases hd
    · cases hd
    · cases hd
    · simp only at hd
      rcases hp with hp | hp <;> rw [hp] at hd <;> cases hd
    · exact he
  · intro o1 o2 s1 hs
    simp only [step] at hs ⊢
    split at hs
    · rename_i hp
      rw [if_pos hp]
      cases hsel : selectClient clients s.clientCounter with
      | none =>
        simp only [hsel, Option.some.injEq] at hs
        subst hs
        exact ⟨_, rfl, rfl, rfl, rfl, Or.inl rfl⟩
      | some r =>
        obtain ⟨c, i, cl⟩ := r
        simp only [hsel] at hs
        cases o1 <;> cases o2 <;> simp only [Option.some.injEq] at hs <;> subst hs <;>
          exact ⟨_, rfl, rfl, rfl, rfl, Or.inr rfl⟩
    · simp at hs

/-- Witness for C9: two ticks, one unit failing while the loop still runs, the
quit signal, the other unit answering with status 500, then the join. -/
theorem dispatcher_join_barrier_witness :
    runEvents [DefaultClient]
        [DEvent.tick, DEvent.tick, DEvent.unitRuns UnitOutcome.transportError, DEvent.quit,
          DEvent.unitRuns (UnitOutcome.response 500), DEvent.waitReturns] DState.init
        = some (DState.mk Phase.DONE 2 2 2 1 [500])
    ∧ (DState.mk Phase.DONE 2 2 2 1 [500]).finished
        ≤ (DState.mk Phase.DONE 2 2 2 1 [500]).spawned
    ∧ ((DState.mk Phase.DONE 2 2 2 1 [500]).phase = Phase.DONE →
        (DState.mk Phase.DONE 2 2 2 1 [500]).finished = (DState.mk Phase.DONE 2 2 2 1 [500]).spawned) :=
  ⟨by decide,
   (dispatcher_join_barrier [DefaultClient]
      [DEvent.tick, DEvent.tick, DEvent.unitRuns UnitOutcome.transportError, DEvent.quit,
        DEvent.unitRuns (UnitOutcome.response 500), DEvent.waitReturns]
      (DState.mk Phase.DONE 2 2 2 1 [500])
      (by decide)).1,
   (dispatcher_join_barrier [DefaultClient]
      [DEvent.tick, DEvent.tick, DEvent.unitRuns UnitOutcome.transportError, DEvent.quit,
        DEvent.unitRuns (UnitOutcome.response 500), DEvent.waitReturns]
      (DState.mk Phase.DONE 2 2 2 1 [500])
      (by decide)).2.1⟩

/-! ## C5: non-positive rates and durations -/

theorem tickInterval_nonpos (rps : Int) (h : rps ≤ 0) :
    tickInterval rps = none ∨ ∃ d, tickInterval rps = some d ∧ d ≤ 0 := by
  unfold tickInterval goDiv
  by_cases h0 : rps = 0
  · exact Or.inl (if_pos h0)
  · right
    rw [if_neg h0]
    refine ⟨_, rfl, ?_⟩
    have hS : Second = 1000000000 := rfl
    have hneg : rps = -(-rps) := by omega
    have hq0 : 0 ≤ Int.tdiv 1000000000 (-rps) := Int.tdiv_nonneg (by decide) (by omega)
    have hq1 : Int.tdiv 1000000000 (-rps) ≤ 1000000000 := by
      rw [Int.tdiv_eq_ediv (by decide) (by omega)]
      exact Int.ediv_le_self _ (by decide)
    rw [hS, hneg, Int.tdiv_neg]
    rw [wrapInt64_of_range (by omega) (by omega)]
    omega

/-- A non-positive rate makes `StartTest` panic before the loop is entered. -/
theorem StartTest_aborts_of_nonpos (resolve : String → Option TCPAddr) (rps duration : Int)
    (localAddrs : List String) (schedule : List DEvent) (h : rps ≤ 0) :
    (StartTest resolve rps duration localAddrs schedule).abortedBeforeLoop = true
    ∧ (StartTest resolve rps duration localAddrs schedule).ticks = 0
    ∧ (StartTest resolve rps duration localAddrs schedule).completed = false := by
  unfold StartTest
  dsimp only
  rcases tickInterval_nonpos rps h with hn | ⟨d, hd, hle⟩
  · rw [hn]
    exact ⟨rfl, rfl, rfl⟩
  · rw [hd]
    dsimp only
    have hnew : newTicker d = none := by
      unfold newTicker
      exact if_pos hle
    rw [hnew]
    exact ⟨rfl, rfl, rfl⟩

/-- C5 (counterexample). With `-duration 0` (and the default `-rps 10`) nothing
is rejected: `StartTest` builds its pool, starts a ticker of `100 ms`, receives
the quit signal and returns normally. With `-benchmark -benchDuration 0` on a
one-CPU machine the ten benchmark workers are started and one of them issues a
request before the division by the zero duration panics. -/
theorem nonpositive_duration_not_rejected :
    main { url := "http://h/", rps := 10, duration := 0, benchmark := false,
           benchDuration := 5, localAddrsFlag := "" }
         { resolve := fun _ => none, numCPU := 1, benchRequests := [],
           testSchedule := [DEvent.quit, DEvent.waitReturns] }
      = MainRun.ran none
          (some { clients := [DefaultClient],
                  result := TestResult.entered 100000000 0
                    (some { phase := Phase.DONE, spawned := 0, finished := 0,
                            clientCounter := 0, errorLines := 0, statusLines := [] }) })
    ∧ main { url := "http://h/", rps := 10, duration := 10, benchmark := true,
             benchDuration := 0, localAddrsFlag := "" }
           { resolve := fun _ => none, numCPU := 1, benchRequests := [true],
             testSchedule := [] }
      = MainRun.ran
          (some { clients := [DefaultClient], workersSpawned := 10,
                  final := some { clientCounter := 1, count := 1, errorsLogged := 0 },
                  result := none })
          none := by
  decide

/-- C5 (amended). `main` validates only the URL. Whenever the rate that reaches
`StartTest` is not positive (the `rps` flag without benchmark, or the
benchmark's result), `StartTest` panics while setting up the ticker: the loop
is not entered, no tick is dispatched and the completion line is not printed.
Without the benchmark flag no benchmark worker has been started either.
Nothing is claimed for a non-positive `duration` or `benchDuration`. -/
theorem nonpositive_rate_aborts_before_first_tick (cfg : Config) (env : Env) (r : Int)
    (hrate : rateHandedToDispatcher cfg env = some r) (hr : r ≤ 0) :
    ∃ b t, main cfg env = MainRun.ran b (some t)
      ∧ t = StartTest env.resolve r cfg.duration (splitLocalAddrs cfg.localAddrsFlag)
              env.testSchedule
      ∧ t.abortedBeforeLoop = true
      ∧ t.ticks = 0
      ∧ t.completed = false
      ∧ (cfg.benchmark = false → b = none) := by
  have hab := StartTest_aborts_of_nonpos env.resolve r cfg.duration
    (splitLocalAddrs cfg.localAddrsFlag) env.testSchedule hr
  unfold rateHandedToDispatcher at hrate
  by_cases hurl : cfg.url = ""
  · rw [if_pos hurl] at hrate
    cases hrate
  · rw [if_neg hurl] at hrate
    cases hb : cfg.benchmark with
    | false =>
      rw [hb] at hrate
      simp only [Bool.false_eq_true, if_false, Option.some.injEq] at hrate
      refine ⟨none, _, ?_, rfl, hab.1, hab.2.1, hab.2.2, fun _ => rfl⟩
      unfold main
      rw [if_neg hurl]
      dsimp only
      rw [hb, hrate]
      rfl
    | true =>
      rw [hb] at hrate
      simp only [if_true] at hrate
      refine ⟨some (BenchmarkMaxRequests env.resolve env.numCPU cfg.benchDuration
        (splitLocalAddrs cfg.localAddrsFlag) env.benchRequests), _, ?_, rfl, hab.1, hab.2.1,
        hab.2.2, fun h => by cases h⟩
      unfold main
      rw [if_neg hurl]
      dsimp only
      rw [hb]
      simp only [if_true, hrate]

/-- Witness for C5 (amended): `-rps 0` without benchmark. -/
theorem nonpositive_rate_aborts_before_first_tick_witness :
    ∃ b t, main { url := "http://h/", rps := 0, duration := 10, benchmark := false,
                  benchDuration := 5, localAddrsFlag := "" }
                { resolve := fun _ => none, numCPU := 1, benchRequests := [],
                  testSchedule := [DEvent.tick, DEvent.quit] }
        = MainRun.ran b (some t)
      ∧ t = StartTest (fun _ => none) 0 10 (splitLocalAddrs "") [DEvent.tick, DEvent.quit]
      ∧ t.abortedBeforeLoop = true
      ∧ t.ticks = 0
      ∧ t.completed = false
      ∧ (false = false → b = none) :=
  nonpositive_rate_aborts_before_first_tick
    { url := "http://h/", rps := 0, duration := 10, benchmark := false,
      benchDuration := 5, localAddrsFlag := "" }
    { resolve := fun _ => none, numCPU := 1, benchRequests := [],
      testSchedule := [DEvent.tick, DEvent.quit] }
    0 (by decide) (by decide)

/-! ## C10: the port marker -/

/-- C10 (evaluation at the failing input). A bare IPv6 literal contains a colon,
so no `":0"` is appended and the literal is resolved as it stands; a dotted IPv4
address without port gets the marker. -/
theorem ipv6_literal_gets_no_port_marker :
    addrToResolve "::1" = "::1"
    ∧ addrToResolve "fe80::1" = "fe80::1"
    ∧ addrToResolve "192.168.1.100" = "192.168.1.100:0"
    ∧ (∀ resolve : String → Option TCPAddr,
        (createHTTPClient resolve "::1").isSome = (resolve "::1").isSome) := by
  refine ⟨by decide, by decide, by decide, ?_⟩
  intro resolve
  have h : addrToResolve "::1" = "::1" := by decide
  unfold createHTTPClient
  rw [h]
  cases resolve "::1" <;> rfl

end GoLoadTester
